import Mathlib

/-!
Verification of the DocumentMerger service (src/main.py).

A shallow embedding of the merge service's pure logic:

* part-number extraction and the part-number sort (`extract_part_number`,
  `sort_files_by_part`),
* the PDF merge loop (`merge_pdf_files`),
* the DOCX merge loop (`merge_docx_files_custom`),
* archive extraction dispatch (`extract_compressed_file`),
* the extension filter (`filter_files_by_extension`),
* the `/merge/` endpoint pipeline up to merge dispatch (`merge_files`).

Python strings are modelled as Lean `String`s over their character lists;
`str.lower` is modelled by `Char.toLower` on each character and `\d` by ASCII
digits (the service's filenames are ASCII).  Byte blobs on disk are modelled
by the outcome each parser (zipfile, rarfile, patool, pypdf, python-docx)
would produce on them; file writes are modelled as explicit lists of
`(path, content)` pairs returned by the functions that perform them.
-/

namespace DocumentMerger

/-! ## String helpers: lowering, digits -/

/-- Python `str.lower()` on a character list (ASCII case mapping). -/
def lowerChars (l : List Char) : List Char := l.map Char.toLower

/-- Numeric value of a digit run, as `int()` reads it. -/
def digitsToNat (l : List Char) : Nat := l.foldl (fun n c => 10 * n + (c.toNat - 48)) 0

/-! ## `extract_part_number` (src/main.py lines 37-42)

`re.search(r'part(\d+)', filename.lower())` finds the leftmost position
where the literal `part` is followed by at least one digit and takes the
maximal digit run there; `int` of that run is returned, `0` if no match. -/

/-- Does the list begin with `part` followed by at least one digit?
If so, return the value of the maximal digit run after `part`. -/
def headPartMatch : List Char → Option Nat
  | 'p' :: 'a' :: 'r' :: 't' :: rest =>
      let ds := rest.takeWhile Char.isDigit
      if ds.isEmpty then none else some (digitsToNat ds)
  | _ => none

/-- Leftmost-match scan of `re.search(r'part(\d+)', ·)`: value of the first
position matching `part(\d+)`, or `0` when none matches. -/
def partSearch : List Char → Nat
  | [] => 0
  | c :: tl =>
    match headPartMatch (c :: tl) with
    | some n => n
    | none => partSearch tl

/-- src/main.py `extract_part_number`: part number from a filename, `0` by default. -/
def extract_part_number (filename : String) : Nat :=
  partSearch (lowerChars filename.data)

/-- Spec-side predicate: the (lowercased) filename has an occurrence of
`part` followed by one or more digits starting at index `i`. -/
def matchesAt (l : List Char) (i : Nat) : Bool :=
  (headPartMatch (l.drop i)).isSome

/-- Spec-side value of the match at index `i` (digits read as an integer). -/
def valueAt (l : List Char) (i : Nat) : Nat :=
  (headPartMatch (l.drop i)).getD 0

/-- Positions at or past the end of the list never match. -/
theorem matchesAt_of_length_le (l : List Char) (i : Nat) (h : l.length ≤ i) :
    matchesAt l i = false := by
  have hd : l.drop i = [] := List.drop_eq_nil_of_le h
  simp [matchesAt, hd, headPartMatch]

/-- It is enough to rule out matches at positions inside the list. -/
theorem forall_matchesAt_false (l : List Char)
    (h : ∀ i, i < l.length → matchesAt l i = false) :
    ∀ i, matchesAt l i = false := by
  intro i
  by_cases hi : i < l.length
  · exact h i hi
  · exact matchesAt_of_length_le l i (Nat.le_of_not_lt hi)

theorem partSearch_eq_zero (l : List Char) (h : ∀ i, matchesAt l i = false) :
    partSearch l = 0 := by
  induction l with
  | nil => rfl
  | cons c tl ih =>
    have h0 := h 0
    simp only [matchesAt, List.drop_zero] at h0
    rw [partSearch]
    rcases hm : headPartMatch (c :: tl) with _ | n
    · exact ih (fun i => by simpa [matchesAt] using h (i + 1))
    · rw [hm] at h0; simp at h0

theorem partSearch_eq_of_least (l : List Char) (i : Nat)
    (h : matchesAt l i = true) (hmin : ∀ j, j < i → matchesAt l j = false) :
    partSearch l = valueAt l i := by
  induction l generalizing i with
  | nil => simp [matchesAt, headPartMatch, List.drop_nil] at h
  | cons c tl ih =>
    cases i with
    | zero =>
      simp only [matchesAt, List.drop_zero, Option.isSome_iff_exists] at h
      obtain ⟨n, hn⟩ := h
      rw [partSearch, hn]
      simp [valueAt, hn]
    | succ i' =>
      have h0 := hmin 0 (Nat.succ_pos _)
      simp only [matchesAt, List.drop_zero] at h0
      rw [partSearch]
      rcases hm : headPartMatch (c :: tl) with _ | n
      · have hdrop : (c :: tl).drop (i' + 1) = tl.drop i' := rfl
        have h' : matchesAt tl i' = true := by simpa [matchesAt, hdrop] using h
        have hmin' : ∀ j, j < i' → matchesAt tl j = false := by
          intro j hj
          have := hmin (j + 1) (Nat.succ_lt_succ hj)
          simpa [matchesAt] using this
        have := ih i' h' hmin'
        simpa [valueAt, hdrop] using this
      · rw [hm] at h0; simp at h0

/-- C3: for every filename, the sort key equals the value of the first
case-insensitive `part<digits>` occurrence, and is `0` when there is none. -/
theorem extract_part_number_spec (s : String) :
    ((∀ i, matchesAt (lowerChars s.data) i = false) → extract_part_number s = 0) ∧
    (∀ i, matchesAt (lowerChars s.data) i = true →
      (∀ j, j < i → matchesAt (lowerChars s.data) j = false) →
      extract_part_number s = valueAt (lowerChars s.data) i) := by
  constructor
  · intro h; exact partSearch_eq_zero _ h
  · intro i h hmin; exact partSearch_eq_of_least _ i h hmin

/-- C3 witness: `"File_Part12.pdf"` matches first at index 5 with value 12,
and `extract_part_number` indeed returns 12; `"readme.txt"` has no match
and the key is 0. -/
theorem extract_part_number_spec_witness :
    extract_part_number "File_Part12.pdf" = 12 ∧ extract_part_number "readme.txt" = 0 := by
  constructor
  · have h := (extract_part_number_spec "File_Part12.pdf").2 5 (by decide)
      (by decide)
    simpa [valueAt] using h
  · exact (extract_part_number_spec "readme.txt").1
      (forall_matchesAt_false _ (by decide))

/-! ## `sort_files_by_part` (src/main.py lines 45-47)

Python's `sorted(xs, key=f)` is specified as a stable ascending sort by
`f`; we model it by insertion sort with the relation `f a ≤ f b`, which is
exactly such a sort. -/

/-- Model of `sorted(l, key=key)`: stable ascending sort by a numeric key. -/
def sortByKey {α : Type} (key : α → Nat) (l : List α) : List α :=
  List.insertionSort (fun a b => key a ≤ key b) l

section StableSort

variable {α : Type} (key : α → Nat)

theorem filter_orderedInsert_pos (k : Nat) (a : α) (m : List α) (h : key a = k) :
    (List.orderedInsert (fun x y => key x ≤ key y) a m).filter (fun x => key x == k) =
      a :: m.filter (fun x => key x == k) := by
  induction m with
  | nil => simp [List.orderedInsert, h]
  | cons b m' ih =>
    by_cases hr : key a ≤ key b
    · simp only [List.orderedInsert, if_pos hr, List.filter_cons]
      simp [h]
    · have hb : (key b == k) = false := by
        have : key b < key a := Nat.lt_of_not_le hr
        simp only [beq_eq_false_iff_ne, ne_eq]
        omega
      simp only [List.orderedInsert, if_neg hr, List.filter_cons, hb, ih]
      simp

theorem filter_orderedInsert_neg (k : Nat) (a : α) (m : List α) (h : key a ≠ k) :
    (List.orderedInsert (fun x y => key x ≤ key y) a m).filter (fun x => key x == k) =
      m.filter (fun x => key x == k) := by
  induction m with
  | nil => simp [List.orderedInsert, h]
  | cons b m' ih =>
    by_cases hr : key a ≤ key b
    · simp only [List.orderedInsert, if_pos hr, List.filter_cons]
      simp [h]
    · simp only [List.orderedInsert, if_neg hr, List.filter_cons, ih]

theorem sortByKey_cons (a : α) (l : List α) :
    sortByKey key (a :: l) =
      List.orderedInsert (fun x y => key x ≤ key y) a (sortByKey key l) := rfl

/-- Stability of `sortByKey`: for every key value, the subsequence of
elements carrying that key is unchanged. -/
theorem filter_sortByKey (k : Nat) (l : List α) :
    (sortByKey key l).filter (fun x => key x == k) = l.filter (fun x => key x == k) := by
  induction l with
  | nil => rfl
  | cons a l ih =>
    rw [sortByKey_cons]
    by_cases h : key a = k
    · rw [filter_orderedInsert_pos key k a _ h, ih, List.filter_cons]
      simp [h]
    · rw [filter_orderedInsert_neg key k a _ h, ih, List.filter_cons]
      simp [h]

/-- The `sortByKey` output is pairwise ascending in the key. -/
theorem pairwise_sortByKey (l : List α) :
    (sortByKey key l).Pairwise (fun a b => key a ≤ key b) := by
  haveI : IsTotal α (fun a b => key a ≤ key b) := ⟨fun a b => Nat.le_total _ _⟩
  haveI : IsTrans α (fun a b => key a ≤ key b) := ⟨fun _ _ _ => Nat.le_trans⟩
  exact List.sorted_insertionSort _ l

/-- The sort permutes its input. -/
theorem perm_sortByKey (l : List α) : List.Perm (sortByKey key l) l :=
  List.perm_insertionSort _ l

end StableSort

/-! ## Uploaded files and byte blobs

An uploaded file is its declared filename plus its bytes; the bytes are
abstracted by what each parser used in src/main.py would produce on them. -/

/-- A member of an archive, as listed by zipfile/rarfile. -/
structure ArchiveEntry where
  name : String
  isDir : Bool
deriving DecidableEq

/-- A byte blob on disk, abstracted by each parser's outcome on it:
`none` means that parser raises on these bytes. -/
structure FileBytes where
  zipEntries : Option (List ArchiveEntry) := none
  rarEntries : Option (List ArchiveEntry) := none
  patoolFiles : Option (List String) := none
deriving DecidableEq

/-- A FastAPI `UploadFile`: declared filename plus content bytes. -/
structure UploadFileM where
  filename : String
  content : FileBytes := {}
deriving DecidableEq

/-- src/main.py `sort_files_by_part`: sort uploaded files by the part
number in their filename (Python `sorted`, i.e. stable ascending). -/
def sort_files_by_part (files : List UploadFileM) : List UploadFileM :=
  sortByKey (fun file => extract_part_number file.filename) files

/-- C4: sorting by part number is a stable ascending sort: the output is
pairwise ascending in the part-number key, is a permutation of the input,
and files with equal keys keep their relative input order (the subsequence
at each key value is unchanged). -/
theorem sort_files_by_part_spec (files : List UploadFileM) :
    (sort_files_by_part files).Pairwise
        (fun a b => extract_part_number a.filename ≤ extract_part_number b.filename) ∧
      List.Perm (sort_files_by_part files) files ∧
      (∀ k, (sort_files_by_part files).filter
            (fun f => extract_part_number f.filename == k) =
          files.filter (fun f => extract_part_number f.filename == k)) :=
  ⟨pairwise_sortByKey _ files, perm_sortByKey _ files,
    fun k => filter_sortByKey _ k files⟩

/-! ## `merge_pdf_files` (src/main.py lines 50-60)

The function walks the input paths in order, opens each with `PdfReader`
(which raises on unreadable bytes; the function has no handler, so the
first unreadable input aborts the whole merge) and appends every page to a
`PdfWriter`; only after the loop does it open the output path and write.
An input path is modelled by its read outcome: `some doc` for a readable
PDF, `none` for bytes `PdfReader` rejects.  The file writes performed are
returned as an explicit `(path, writer)` list. -/

/-- A PDF page, copied as an opaque unit. -/
structure PdfPage where
  id : Nat
deriving DecidableEq

/-- A parsed PDF: its ordered page list. -/
structure PdfDoc where
  pages : List PdfPage
deriving DecidableEq

/-- The accumulating `PdfWriter`. -/
structure PdfWriterM where
  pages : List PdfPage
deriving DecidableEq

/-- Model of `PdfWriter.add_page`: append one page. -/
def add_page (w : PdfWriterM) (p : PdfPage) : PdfWriterM := ⟨w.pages ++ [p]⟩

/-- The read-and-append loop: reads inputs in order; the first unreadable
input (a `none`) aborts with its index, before any write. -/
def mergePdfLoop : List (Option PdfDoc) → Nat → PdfWriterM → Except Nat PdfWriterM
  | [], _, w => .ok w
  | none :: _, i, _ => .error i
  | some d :: rest, i, w => mergePdfLoop rest (i + 1) (d.pages.foldl add_page w)

/-- src/main.py `merge_pdf_files`: merge the readable inputs into one
writer and write the output file once, at the end.  The result is the list
of file writes performed (empty on the error path, since the abort happens
before the output file is opened). -/
def merge_pdf_files (inputs : List (Option PdfDoc)) (output_path : String) :
    Except Nat (List (String × PdfWriterM)) :=
  (mergePdfLoop inputs 0 ⟨[]⟩).map (fun w => [(output_path, w)])

theorem foldl_add_page (ps : List PdfPage) (w : PdfWriterM) :
    ps.foldl add_page w = ⟨w.pages ++ ps⟩ := by
  induction ps generalizing w with
  | nil => simp
  | cons p ps ih => simp [List.foldl_cons, add_page, ih]

theorem mergePdfLoop_ok (docs : List PdfDoc) (i : Nat) (w : PdfWriterM) :
    mergePdfLoop (docs.map some) i w = .ok ⟨w.pages ++ (docs.map PdfDoc.pages).flatten⟩ := by
  induction docs generalizing i w with
  | nil => simp [mergePdfLoop]
  | cons d docs ih =>
    simp only [List.map_cons, mergePdfLoop, foldl_add_page, ih, List.flatten_cons,
      List.append_assoc]

/-- C5: merging readable PDFs writes, once, a document whose page list is
exactly the concatenation of the inputs' page lists in input order, so its
page count is the sum of the inputs' page counts. -/
theorem merge_pdf_files_spec (docs : List PdfDoc) (output_path : String) :
    merge_pdf_files (docs.map some) output_path =
        .ok [(output_path, ⟨(docs.map PdfDoc.pages).flatten⟩)] ∧
      (docs.map PdfDoc.pages).flatten.length =
        (docs.map (fun d => d.pages.length)).sum := by
  constructor
  · simp [merge_pdf_files, mergePdfLoop_ok, Except.map]
  · simp [List.length_flatten, Function.comp_def]

theorem mergePdfLoop_error (inputs : List (Option PdfDoc)) (i0 i : Nat) (w : PdfWriterM)
    (h : inputs[i]? = some none) (hmin : ∀ j, j < i → inputs[j]? ≠ some none) :
    mergePdfLoop inputs i0 w = .error (i0 + i) := by
  induction inputs generalizing i0 i w with
  | nil => simp at h
  | cons x rest ih =>
    cases i with
    | zero =>
      simp only [List.getElem?_cons_zero, Option.some.injEq] at h
      subst h
      rfl
    | succ i' =>
      have hx := hmin 0 (Nat.succ_pos _)
      simp only [List.getElem?_cons_zero, ne_eq, Option.some.injEq] at hx
      rcases x with _ | d
      · exact absurd rfl hx
      · have h' : rest[i']? = some none := by simpa using h
        have hmin' : ∀ j, j < i' → rest[j]? ≠ some none := by
          intro j hj
          have := hmin (j + 1) (Nat.succ_lt_succ hj)
          simpa using this
        have := ih (i0 + 1) i' ((d.pages).foldl add_page w) h' hmin'
        rw [mergePdfLoop, this]
        congr 1
        omega

/-- C6: if some input is unreadable, the merge aborts at the first
unreadable input with no file write: the output path is neither created
nor modified. -/
theorem merge_pdf_files_fail (inputs : List (Option PdfDoc)) (output_path : String)
    (i : Nat) (h : inputs[i]? = some none)
    (hmin : ∀ j, j < i → inputs[j]? ≠ some none) :
    merge_pdf_files inputs output_path = .error i := by
  have := mergePdfLoop_error inputs 0 i ⟨[]⟩ h hmin
  simp [merge_pdf_files, this, Except.map]

/-- C6 witness: inputs `[readable, unreadable, unreadable]` abort with
error index 1 and produce no write. -/
theorem merge_pdf_files_fail_witness :
    merge_pdf_files [some ⟨[⟨0⟩]⟩, none, none] "uploads/out.pdf" = .error 1 :=
  merge_pdf_files_fail [some ⟨[⟨0⟩]⟩, none, none] "uploads/out.pdf" 1 (by decide)
    (by decide)

/-! ## `merge_docx_files_custom` (src/main.py lines 101-150)

A DOCX body is a sequence of block-level elements: paragraphs and tables
(plus the new-page section breaks the merge inserts, `add_section` with
`start_type = 2`).  `doc.paragraphs` lists the body's paragraphs and
`doc.tables` its tables; a paragraph is a style plus a run list; a run's
copy keeps text/bold/italic/underline and copies size and colour only when
truthy (`if run.font.size:`, `if run.font.color.rgb:`); a table copy keeps
only cell texts on a fresh rows × columns grid.  Input paths are modelled
by their parsed documents; the write of the output file is returned as an
explicit `(path, document)` list. -/

/-- A run: text plus the formatting attributes the code copies. -/
structure RunM where
  text : String
  bold : Option Bool := none
  italic : Option Bool := none
  underline : Option Bool := none
  size : Option Nat := none
  color : Option Nat := none
deriving DecidableEq

/-- A paragraph: style name plus runs. -/
structure ParaM where
  style : String
  runs : List RunM
deriving DecidableEq

/-- A table cell, abstracted to its text (the only part the code copies). -/
structure CellM where
  text : String
deriving DecidableEq

/-- A table: its grid-column count and its rows of cells. -/
structure TableM where
  cols : Nat
  rows : List (List CellM)
deriving DecidableEq

/-- A block-level element of a DOCX body. -/
inductive BlockM
  | par (p : ParaM)
  | tbl (t : TableM)
  | sectionBreak (startType : Nat)
deriving DecidableEq

/-- A parsed DOCX: its ordered body blocks. -/
structure DocxM where
  blocks : List BlockM
deriving DecidableEq

/-- Python-docx `doc.paragraphs`: the body's paragraphs, in body order. -/
def docParagraphs (d : DocxM) : List ParaM :=
  d.blocks.filterMap (fun b => match b with | .par p => some p | _ => none)

/-- Python-docx `doc.tables`: the body's tables, in body order. -/
def docTables (d : DocxM) : List TableM :=
  d.blocks.filterMap (fun b => match b with | .tbl t => some t | _ => none)

/-- The run copy of lines 128-135: text, bold, italic, underline always;
size only when truthy (`Length` is an `int` subclass, so both `None` and
zero are falsy and skipped); colour whenever present (`RGBColor` is a
`tuple` subclass, so every non-`None` value — explicit black included —
is truthy and copied). -/
def copyRun (r : RunM) : RunM :=
  { text := r.text
    bold := r.bold
    italic := r.italic
    underline := r.underline
    size := if r.size.getD 0 ≠ 0 then r.size else none
    color := if r.color.isSome then r.color else none }

/-- The paragraph copy of lines 122-135: a fresh paragraph with the same
style, whose runs are the copies of the source runs. -/
def copyPara (p : ParaM) : ParaM :=
  { style := p.style, runs := p.runs.map copyRun }

/-- The table copy of lines 138-147: a fresh `rows × columns` grid; each
source cell's text is copied where the indices fit, other cells keep the
empty default. -/
def copyTable (t : TableM) : TableM :=
  { cols := t.cols
    rows := t.rows.map (fun row =>
      (List.range t.cols).map (fun j => ⟨(((row[j]?).map CellM.text).getD "")⟩)) }

/-- One iteration of the loop over `file_paths[1:]`: add a new-page
section break, then append the copies of all of the document's paragraphs,
then the copies of all of its tables. -/
def appendOne (acc : DocxM) (d : DocxM) : DocxM :=
  let acc1 : DocxM := ⟨acc.blocks ++ [.sectionBreak 2]⟩
  let acc2 := (docParagraphs d).foldl
    (fun a p => ⟨a.blocks ++ [.par (copyPara p)]⟩) acc1
  (docTables d).foldl (fun a t => ⟨a.blocks ++ [.tbl (copyTable t)]⟩) acc2

/-- src/main.py `merge_docx_files_custom`: empty input returns at once
(writing nothing); otherwise the first document is the base and each later
document is appended by `appendOne`; the result is saved to the output
path once, at the end.  The returned list is the file writes performed. -/
def merge_docx_files_custom (inputs : List DocxM) (output_path : String) :
    List (String × DocxM) :=
  match inputs with
  | [] => []
  | d0 :: rest => [(output_path, rest.foldl appendOne d0)]

theorem foldl_append_blocks {β : Type} (f : β → BlockM) (l : List β) (a : DocxM) :
    l.foldl (fun a x => DocxM.mk (a.blocks ++ [f x])) a = ⟨a.blocks ++ l.map f⟩ := by
  induction l generalizing a with
  | nil => simp
  | cons x l ih => simp [List.foldl_cons, ih]

theorem appendOne_blocks (acc d : DocxM) :
    appendOne acc d =
      ⟨acc.blocks ++ (BlockM.sectionBreak 2 ::
        ((docParagraphs d).map (fun p => BlockM.par (copyPara p)) ++
          (docTables d).map (fun t => BlockM.tbl (copyTable t))))⟩ := by
  simp [appendOne, foldl_append_blocks]

/-- C1 (amended): with at least one input, the output is written once and
its body is: the first input's blocks unchanged, then for each later
input, a new-page section break followed by that input's paragraphs (in
order, copied) and then its tables (in order, copied) — paragraphs first,
tables second, regardless of how they interleave in that input. -/
theorem merge_docx_files_custom_spec (d0 : DocxM) (rest : List DocxM)
    (output_path : String) :
    merge_docx_files_custom (d0 :: rest) output_path =
      [(output_path, ⟨d0.blocks ++ rest.flatMap (fun d =>
        BlockM.sectionBreak 2 ::
          ((docParagraphs d).map (fun p => BlockM.par (copyPara p)) ++
            (docTables d).map (fun t => BlockM.tbl (copyTable t))))⟩)] := by
  show [(output_path, rest.foldl appendOne d0)] = _
  congr 1
  rw [Prod.mk.injEq]
  refine ⟨rfl, ?_⟩
  induction rest generalizing d0 with
  | nil => simp
  | cons d rest ih =>
    rw [List.foldl_cons, appendOne_blocks, ih]
    simp [List.flatMap_cons, List.append_assoc]

/-- C1 counterexample: the claim's predicted body keeps each input's
internal block order; for a second input whose body is a table followed by
a paragraph, the code emits the paragraph before the table. -/
def specMergedBlocks : List DocxM → List BlockM
  | [] => []
  | d :: rest =>
    d.blocks ++ rest.flatMap (fun d => BlockM.sectionBreak 2 ::
      d.blocks.map (fun b => match b with
        | .par p => BlockM.par (copyPara p)
        | .tbl t => BlockM.tbl (copyTable t)
        | b => b))

/-- C1 is false as stated: with inputs `[⟨[paragraph A]⟩, ⟨[table, paragraph B]⟩]`
the merged body is not the inputs' blocks in their own internal order with
a break between — the second input's paragraph is emitted before its
table. -/
theorem merge_docx_order_counterexample :
    merge_docx_files_custom
        [⟨[.par ⟨"Normal", [⟨"A", none, none, none, none, none⟩]⟩]⟩,
          ⟨[.tbl ⟨1, [[⟨"T"⟩]]⟩,
            .par ⟨"Normal", [⟨"B", none, none, none, none, none⟩]⟩]⟩]
        "uploads/out.docx" ≠
      [("uploads/out.docx",
        ⟨specMergedBlocks
          [⟨[.par ⟨"Normal", [⟨"A", none, none, none, none, none⟩]⟩]⟩,
            ⟨[.tbl ⟨1, [[⟨"T"⟩]]⟩,
              .par ⟨"Normal", [⟨"B", none, none, none, none, none⟩]⟩]⟩]⟩)] := by
  decide

/-- C2: with a single input the merge loop (element copying, break
insertion) never runs, and the document written is the parsed input
re-saved unchanged — the code's passthrough is the library's parse/save
round trip, a structural copy rather than a byte copy of the file. -/
theorem merge_docx_files_single (d : DocxM) (output_path : String) :
    merge_docx_files_custom [d] output_path = [(output_path, d)] := rfl

/-- C10: on the empty input list the DOCX merge returns at once: no file
is created or modified at the output path, no document is opened. -/
theorem merge_docx_files_empty (output_path : String) :
    merge_docx_files_custom [] output_path = [] := rfl

/-! ## Path helpers: `os.path.splitext`, `os.path.basename`, `os.path.join` -/

/-- Python `str.rfind(c)`: index of the last occurrence of `c`, `-1` if absent. -/
def rfindChar (c : Char) (l : List Char) : Int :=
  (l.foldl (fun (st : Int × Int) x =>
    (st.1 + 1, if x = c then st.1 else st.2)) (0, -1)).2

/-- Model of `os.path.splitext(p)[1]` (posix): the suffix from the last dot of the
basename, empty when the basename has no dot or only leading dots. -/
def splitextExtChars (p : List Char) : List Char :=
  let sepIndex := rfindChar '/' p
  let dotIndex := rfindChar '.' p
  if sepIndex < dotIndex then
    if ((p.drop (sepIndex + 1).toNat).take (dotIndex - sepIndex - 1).toNat).any
        (fun ch => ch ≠ '.') then
      p.drop dotIndex.toNat
    else []
  else []

/-- The value `os.path.splitext(p)[1].lower()`, the extension test used throughout
src/main.py. -/
def extLower (p : String) : String := ⟨lowerChars (splitextExtChars p.data)⟩

/-- Model of `os.path.basename` (posix): everything after the last `/`. -/
def basename (p : String) : String :=
  ⟨p.data.drop ((rfindChar '/' p.data) + 1).toNat⟩

/-- Model of `os.path.join(dir, name)` for a relative `name`. -/
def pathJoin (dir name : String) : String := dir ++ "/" ++ name

/-! ## `filter_files_by_extension` (src/main.py lines 96-98) -/

/-- src/main.py `filter_files_by_extension`: keep the paths whose
lowercased extension is in `extensions`. -/
def filter_files_by_extension (file_paths : List String) (extensions : List String) :
    List String :=
  file_paths.filter (fun path => extensions.contains (extLower path))

/-- C9: the filter retains exactly the paths whose extension is accepted —
a path is in the output iff it is an input with accepted extension — drops
all others, raises nothing (it is total), and preserves input order (the
output is a sublist of the input). -/
theorem filter_files_by_extension_spec (file_paths extensions : List String) :
    (∀ p, p ∈ filter_files_by_extension file_paths extensions ↔
        p ∈ file_paths ∧ extLower p ∈ extensions) ∧
      (filter_files_by_extension file_paths extensions).Sublist file_paths := by
  constructor
  · intro p
    simp [filter_files_by_extension, List.mem_filter]
  · exact List.filter_sublist file_paths

/-! ## `extract_compressed_file` (src/main.py lines 66-93)

The code dispatches on the file's extension: `.zip` is handed to
`zipfile` only, `.rar` to `rarfile` only, anything else to `patoolib`;
whichever library was chosen, its failure is caught and re-raised as an
HTTP 400 — no other format is attempted.  A blob is modelled by each
parser's outcome on it (`FileBytes`); zip drops members whose name ends in
`/`, rar drops members flagged as directories, patool returns every file
`os.walk` finds under the extraction directory. -/

/-- Did an `Except` computation succeed? -/
def exceptOk {ε α : Type} : Except ε α → Bool
  | .ok _ => true
  | .error _ => false

instance {ε α : Type} [DecidableEq ε] [DecidableEq α] : DecidableEq (Except ε α) :=
  fun x y =>
    match x, y with
    | .error e, .error e' => decidable_of_iff (e = e') (by simp)
    | .error _, .ok _ => isFalse (by simp)
    | .ok _, .error _ => isFalse (by simp)
    | .ok a, .ok a' => decidable_of_iff (a = a') (by simp)

/-- Python `name.endswith('/')` for the one-character suffix: the last
character is `/`. -/
def endsWithSlash (s : String) : Bool := s.data.getLast? == some '/'

/-- src/main.py `extract_compressed_file`. -/
def extract_compressed_file (file_path : String) (content : FileBytes)
    (extract_dir : String) : Except String (List String) :=
  let file_ext := extLower file_path
  if file_ext = ".zip" then
    match content.zipEntries with
    | some entries =>
        .ok ((entries.filter (fun e => !(endsWithSlash e.name))).map
          (fun e => pathJoin extract_dir e.name))
    | none => .error "Error extracting archive"
  else if file_ext = ".rar" then
    match content.rarEntries with
    | some entries =>
        .ok ((entries.filter (fun e => !e.isDir)).map
          (fun e => pathJoin extract_dir e.name))
    | none => .error "Error extracting archive"
  else
    match content.patoolFiles with
    | some fs => .ok (fs.map (pathJoin extract_dir))
    | none => .error "Error extracting archive"

/-- C7 is false as stated: a blob uploaded as `upload.zip` that `zipfile`
rejects but `rarfile` recognizes makes the extraction fail — no RAR or
generic fallback is tried, although a format in the claimed sequence
recognizes the input. -/
theorem extract_compressed_file_counterexample :
    (FileBytes.rarEntries ⟨none, some [⟨"doc_part1.pdf", false⟩], none⟩).isSome = true ∧
      extract_compressed_file "upload.zip" ⟨none, some [⟨"doc_part1.pdf", false⟩], none⟩
          "tmp/x" =
        .error "Error extracting archive" := by
  decide

/-- C7 (amended): extraction dispatches on the filename extension — a
`.zip` file is tried only with the ZIP extractor, a `.rar` file only with
the RAR extractor, and any other extension only with the generic
extractor; it succeeds exactly when the single chosen extractor
recognizes the bytes, and no other format is ever attempted. -/
theorem extract_compressed_file_dispatch (file_path : String) (content : FileBytes)
    (extract_dir : String) :
    (extLower file_path = ".zip" →
      (exceptOk (extract_compressed_file file_path content extract_dir) = true ↔
        content.zipEntries.isSome = true)) ∧
    (extLower file_path = ".rar" →
      (exceptOk (extract_compressed_file file_path content extract_dir) = true ↔
        content.rarEntries.isSome = true)) ∧
    (extLower file_path ≠ ".zip" → extLower file_path ≠ ".rar" →
      (exceptOk (extract_compressed_file file_path content extract_dir) = true ↔
        content.patoolFiles.isSome = true)) := by
  refine ⟨fun hz => ?_, fun hr => ?_, fun hnz hnr => ?_⟩
  · rcases hc : content.zipEntries with _ | entries <;>
      simp [extract_compressed_file, hz, hc, exceptOk]
  · have hzr : (".rar" : String) ≠ ".zip" := by decide
    rcases hc : content.rarEntries with _ | entries <;>
      simp [extract_compressed_file, hr, hzr, hc, exceptOk]
  · rcases hc : content.patoolFiles with _ | fs <;>
      simp [extract_compressed_file, hnz, hnr, hc, exceptOk]

/-- C7 witness: a `.zip` upload succeeds exactly by the ZIP branch; a
`.tar.gz` upload is decided by the generic branch. -/
theorem extract_compressed_file_dispatch_witness :
    exceptOk (extract_compressed_file "a.zip" ⟨some [], none, none⟩ "d") = true ∧
      exceptOk (extract_compressed_file "b.tar.gz" ⟨none, none, some ["f.pdf"]⟩ "d") =
        true := by
  constructor
  · exact ((extract_compressed_file_dispatch "a.zip" ⟨some [], none, none⟩ "d").1
      (by decide)).mpr (by decide)
  · exact ((extract_compressed_file_dispatch "b.tar.gz" ⟨none, none, some ["f.pdf"]⟩
      "d").2.2 (by decide) (by decide)).mpr (by decide)

/-! ## The `/merge/` endpoint (src/main.py lines 261-344), up to dispatch

The pipeline: save each upload under the scratch directory, extracting
the ones whose extension is `.zip`/`.rar`; if any archive was seen, keep
(only) the filtered extracted files, reject an empty or mixed set, sort by
part number; otherwise demand every direct upload have a supported
extension, reject a mixed set, sort; finally dispatch on the first sorted
path's extension to the PDF or DOCX merge.  We model the pipeline up to and
including the dispatch decision; the merge functions themselves are the
subjects of `merge_pdf_files` and `merge_docx_files_custom` above. -/

/-- An HTTP 400 rejection with its detail message. -/
inductive HTTPErrorM
  | badRequest (detail : String)
deriving DecidableEq

/-- Which merge strategy the endpoint dispatches to. -/
inductive StrategyM
  | pdf
  | docx
deriving DecidableEq

/-- A successful dispatch: the strategy chosen, the sorted input paths
handed to it, and the output path that will be written. -/
structure DispatchM where
  strategy : StrategyM
  ordered_paths : List String
  output_path : String
deriving DecidableEq

/-- The `valid_extensions` list of lines 300 and 321. -/
def valid_extensions : List String := [".pdf", ".docx", ".doc"]

/-- Lines 277-295: save each upload; a `.zip`/`.rar` upload is extracted
into its own subdirectory (an extraction failure aborts the request);
other uploads are collected as direct temp paths.  Returns the direct
paths, the extracted paths and whether any archive was seen. -/
def saveLoop (temp_dir : String) :
    List UploadFileM → List String → List String → Bool →
    Except String (List String × List String × Bool)
  | [], temps, extr, isA => .ok (temps, extr, isA)
  | f :: rest, temps, extr, isA =>
    if [".zip", ".rar"].contains (extLower f.filename) then
      match extract_compressed_file (pathJoin temp_dir f.filename) f.content
          (pathJoin temp_dir ("extracted_" ++ basename f.filename)) with
      | .ok ex => saveLoop temp_dir rest temps (extr ++ ex) true
      | .error e => .error e
    else
      saveLoop temp_dir rest (temps ++ [pathJoin temp_dir f.filename]) extr isA

/-- Lines 333-344: reject an empty path list, then dispatch on the first
path's extension (`.pdf` to the PDF merge, anything else to the DOCX
merge), writing to `uploads/<name><ext>`. -/
def dispatchMerge (temp_file_paths : List String) (output_filename : String) :
    Except HTTPErrorM DispatchM :=
  match temp_file_paths with
  | [] => .error (.badRequest "No valid files found to merge")
  | p :: _ =>
    let file_ext := extLower p
    let output_path := "uploads/" ++ output_filename ++ file_ext
    if file_ext = ".pdf" then
      .ok ⟨.pdf, temp_file_paths, output_path⟩
    else
      .ok ⟨.docx, temp_file_paths, output_path⟩

/-- src/main.py `merge_files` (the `/merge/` endpoint), up to dispatch. -/
def merge_files (files : List UploadFileM) (output_filename : String) :
    Except HTTPErrorM DispatchM :=
  if files.isEmpty then .error (.badRequest "No files uploaded")
  else
    match saveLoop "tmp" files [] [] false with
    | .error e => .error (.badRequest e)
    | .ok (_temps, extracted, is_archive) =>
      if is_archive then
        let filtered_files := filter_files_by_extension extracted valid_extensions
        if filtered_files.isEmpty then
          .error (.badRequest "No PDF or DOCX/DOC files found in the archive")
        else if 1 < (filtered_files.map extLower).eraseDups.length then
          .error (.badRequest
            "Files in the archive must be of the same type (either all PDF or all DOCX/DOC)")
        else
          dispatchMerge
            (sortByKey (fun path => extract_part_number (basename path)) filtered_files)
            output_filename
      else
        let file_extensions := files.map (fun f => extLower f.filename)
        if ¬ (file_extensions.all (fun e => valid_extensions.contains e)) then
          .error (.badRequest "Only PDF and DOCX/DOC files are supported")
        else if 1 < file_extensions.eraseDups.length then
          .error (.badRequest
            "All files must be of the same type (either all PDF or all DOCX/DOC)")
        else
          dispatchMerge
            ((sort_files_by_part files).map (fun f => pathJoin "tmp" f.filename))
            output_filename

/-- The input set the claim speaks about: the extracted files filtered by
accepted extension when the request carried an archive, the uploaded
filenames filtered the same way otherwise; `none` when extraction aborts
the request first. -/
def effectiveFiltered (files : List UploadFileM) : Option (List String) :=
  match saveLoop "tmp" files [] [] false with
  | .error _ => none
  | .ok (_, extracted, true) =>
    some (filter_files_by_extension extracted valid_extensions)
  | .ok (_, _, false) =>
    some (filter_files_by_extension (files.map (fun f => f.filename)) valid_extensions)

/-- A mixed filtered set is in particular nonempty. -/
theorem ne_nil_of_mixed (l : List String)
    (h : 1 < (l.map extLower).eraseDups.length) : l ≠ [] := by
  intro hnil
  subst hnil
  exact absurd h (by decide)

/-- When no upload has an archive extension, the save loop collects every
temp path, extracts nothing, and reports no archive. -/
theorem saveLoop_no_archive (temp_dir : String) (files : List UploadFileM)
    (temps extr : List String) (isA : Bool)
    (h : ∀ f ∈ files, ([".zip", ".rar"].contains (extLower f.filename)) = false) :
    saveLoop temp_dir files temps extr isA =
      .ok (temps ++ files.map (fun f => pathJoin temp_dir f.filename), extr, isA) := by
  induction files generalizing temps with
  | nil => simp [saveLoop]
  | cons f fs ih =>
    have hf := h f (List.mem_cons_self f fs)
    rw [saveLoop, hf]
    simp only [Bool.false_eq_true, if_false]
    rw [ih (temps ++ [pathJoin temp_dir f.filename])
      (fun g hg => h g (List.mem_cons_of_mem f hg))]
    simp

theorem merge_files_eq_direct (files : List UploadFileM) (output_filename : String)
    (temps extr : List String)
    (hne : files.isEmpty = false)
    (hs : saveLoop "tmp" files [] [] false = .ok (temps, extr, false)) :
    merge_files files output_filename =
      (if ¬ ((files.map (fun f => extLower f.filename)).all
            (fun e => valid_extensions.contains e)) then
        .error (.badRequest "Only PDF and DOCX/DOC files are supported")
      else if 1 < (files.map (fun f => extLower f.filename)).eraseDups.length then
        .error (.badRequest
          "All files must be of the same type (either all PDF or all DOCX/DOC)")
      else
        dispatchMerge
          ((sort_files_by_part files).map (fun f => pathJoin "tmp" f.filename))
          output_filename) := by
  simp only [merge_files, hne, Bool.false_eq_true, if_false, hs]

theorem merge_files_eq_archive (files : List UploadFileM) (output_filename : String)
    (temps extr : List String)
    (hne : files.isEmpty = false)
    (hs : saveLoop "tmp" files [] [] false = .ok (temps, extr, true)) :
    merge_files files output_filename =
      (if (filter_files_by_extension extr valid_extensions).isEmpty then
        .error (.badRequest "No PDF or DOCX/DOC files found in the archive")
      else if 1 < ((filter_files_by_extension extr valid_extensions).map
            extLower).eraseDups.length then
        .error (.badRequest
          "Files in the archive must be of the same type (either all PDF or all DOCX/DOC)")
      else
        dispatchMerge
          (sortByKey (fun path => extract_part_number (basename path))
            (filter_files_by_extension extr valid_extensions))
          output_filename) := by
  simp only [merge_files, hne, Bool.false_eq_true, if_false, hs]
  simp

/-- C8 (amended): whenever the extracted-and-filtered input set carries
more than one distinct extension, the request is rejected with an HTTP
400 before any merge dispatch (so no output file is produced): with the
mixed-types detail when the request carried an archive, and with the
mixed-types detail in the direct path too provided every direct upload
has a supported extension (a direct upload with an unsupported extension
is rejected by the earlier unsupported-files 400 instead). -/
theorem merge_files_mixed_rejected (files : List UploadFileM) (output_filename : String)
    (l : List String)
    (hl : effectiveFiltered files = some l)
    (hmix : 1 < (l.map extLower).eraseDups.length) :
    (∃ d, merge_files files output_filename = .error (.badRequest d)) ∧
      (∀ temps extracted,
        saveLoop "tmp" files [] [] false = .ok (temps, extracted, true) →
        merge_files files output_filename =
          .error (.badRequest
            "Files in the archive must be of the same type (either all PDF or all DOCX/DOC)")) ∧
      ((∀ f ∈ files, ([".zip", ".rar"].contains (extLower f.filename)) = false) →
        (∀ f ∈ files, extLower f.filename ∈ valid_extensions) →
        merge_files files output_filename =
          .error (.badRequest
            "All files must be of the same type (either all PDF or all DOCX/DOC)")) := by
  have hlne : l ≠ [] := ne_nil_of_mixed l hmix
  rcases hs : saveLoop "tmp" files [] [] false with e | ⟨temps0, extracted0, b⟩
  · simp only [effectiveFiltered, hs] at hl
    exact Option.noConfusion hl
  · cases b with
    | true =>
      simp only [effectiveFiltered, hs, Option.some.injEq] at hl
      have hfe : files ≠ [] := by
        intro h
        subst h
        simp [saveLoop] at hs
      have hne : files.isEmpty = false := by
        rcases files with _ | ⟨f, fs⟩
        · exact absurd rfl hfe
        · rfl
      have hmerge : merge_files files output_filename =
          .error (.badRequest
            "Files in the archive must be of the same type (either all PDF or all DOCX/DOC)") := by
        rw [merge_files_eq_archive files output_filename temps0 extracted0 hne hs, hl]
        have hle : l.isEmpty = false := by
          rcases l with _ | ⟨p, ps⟩
          · exact absurd rfl hlne
          · rfl
        simp [hle, hmix]
      refine ⟨⟨_, hmerge⟩, fun temps extracted h' => hmerge, fun hnoarch _ => ?_⟩
      rw [saveLoop_no_archive "tmp" files [] [] false hnoarch] at hs
      simp at hs
    | false =>
      simp only [effectiveFiltered, hs, Option.some.injEq] at hl
      have hfe : files ≠ [] := by
        intro h
        subst h
        simp [filter_files_by_extension] at hl
        exact hlne hl
      have hne : files.isEmpty = false := by
        rcases files with _ | ⟨f, fs⟩
        · exact absurd rfl hfe
        · rfl
      have hkey : ∀ (hall : (files.map (fun f => extLower f.filename)).all
            (fun e => valid_extensions.contains e) = true),
          merge_files files output_filename =
            .error (.badRequest
              "All files must be of the same type (either all PDF or all DOCX/DOC)") := by
        intro hall
        have hvalid' : ∀ p ∈ files.map (fun f => f.filename),
            valid_extensions.contains (extLower p) = true := by
          intro p hp
          rw [List.mem_map] at hp
          obtain ⟨f, hf, rfl⟩ := hp
          have := List.all_eq_true.mp hall (extLower f.filename)
            (List.mem_map_of_mem (fun f => extLower f.filename) hf)
          exact this
        have hleq : l = files.map (fun f => f.filename) := by
          rw [← hl]
          exact List.filter_eq_self.mpr hvalid'
        have hmix' : 1 < ((files.map (fun f => extLower f.filename)).eraseDups).length := by
          have : l.map extLower = files.map (fun f => extLower f.filename) := by
            rw [hleq, List.map_map]
            rfl
          rw [← this]
          exact hmix
        rw [merge_files_eq_direct files output_filename temps0 extracted0 hne hs, hall]
        rw [if_neg (by simp)]
        rw [if_pos hmix']
      constructor
      · by_cases hall : (files.map (fun f => extLower f.filename)).all
            (fun e => valid_extensions.contains e) = true
        · exact ⟨_, hkey hall⟩
        · refine ⟨"Only PDF and DOCX/DOC files are supported", ?_⟩
          rw [merge_files_eq_direct files output_filename temps0 extracted0 hne hs]
          rw [if_pos hall]
      · refine ⟨fun temps extracted h' => ?_, fun _ hvalid => ?_⟩
        · simp at h'
        · refine hkey ?_
          rw [List.all_eq_true]
          intro e he
          rw [List.mem_map] at he
          obtain ⟨f, hf, rfl⟩ := he
          have := hvalid f hf
          simpa using this

/-- C8 witness (amended theorem): a single ZIP archive containing
`a.pdf` and `b.docx` is rejected with the mixed-types 400. -/
theorem merge_files_mixed_rejected_witness :
    merge_files
        [⟨"arc.zip", ⟨some [⟨"a.pdf", false⟩, ⟨"b.docx", false⟩], none, none⟩⟩]
        "merged_document" =
      .error (.badRequest
        "Files in the archive must be of the same type (either all PDF or all DOCX/DOC)") :=
  (merge_files_mixed_rejected
      [⟨"arc.zip", ⟨some [⟨"a.pdf", false⟩, ⟨"b.docx", false⟩], none, none⟩⟩]
      "merged_document"
      ["tmp/extracted_arc.zip/a.pdf", "tmp/extracted_arc.zip/b.docx"]
      (by decide) (by decide)).2.1
    [] ["tmp/extracted_arc.zip/a.pdf", "tmp/extracted_arc.zip/b.docx"] (by decide)

/-- C8 is false as stated: the direct upload `[a.pdf, b.docx, c.txt]` has a
filtered input set `[a.pdf, b.docx]` with two document extensions, yet the
request is rejected with the unsupported-files 400, not the mixed-types
400 (no merge runs either way). -/
theorem merge_files_mixed_counterexample :
    effectiveFiltered [⟨"a.pdf", {}⟩, ⟨"b.docx", {}⟩, ⟨"c.txt", {}⟩] =
        some ["a.pdf", "b.docx"] ∧
      merge_files [⟨"a.pdf", {}⟩, ⟨"b.docx", {}⟩, ⟨"c.txt", {}⟩] "merged_document" =
        .error (.badRequest "Only PDF and DOCX/DOC files are supported") := by
  decide

end DocumentMerger
